import Mathlib

/-!
Shallow embedding of the video-editor backend (src/backend/index.js).

The backend is a single HTTP handler (`POST /create-video`) that
orchestrates an external media tool (ffmpeg) through a four-stage
pipeline: per-item normalization, concat-manifest build, concatenation,
and audio muxing, followed by streaming delivery and cleanup.

Modelling decisions:
* File paths are an inductive type `FPath`.  The source builds paths by
  string concatenation with distinct directory prefixes and name stems
  (`uploads/<multer name>`, `temp/img-<ts>-<i>.mp4`, `temp/vid-<ts>-<i>.mp4`,
  `temp/concat-list-<ts>.txt`, `temp/merged-<ts>.mp4`,
  `outputs/final-<ts>.mp4`); the constructors carry exactly the varying
  parts, so constructor disjointness mirrors the disjoint name families.
  `Date.now()` is abstracted as a single timestamp parameter `ts`.
* The external tool is a black box; each invocation either succeeds,
  producing a stream whose properties are determined by the command-line
  options given in the source, or fails.  Success/failure is an oracle
  parameter.  The semantics of the concrete option sets used by the
  source (`-loop 1 -t 3 -r 30 scale=1280:720,format=yuv420p`;
  `-r 30 scale=1280:720,format=yuv420p` + aac audio; concat demuxer with
  `-c:v libx264 -pix_fmt yuv420p -r 30`; `-c:v copy -c:a aac -shortest`)
  is written out directly in the per-stage functions.
* The disk is a list of existing paths; `fs.unlinkSync` removes a path,
  creating a file appends it.
-/

namespace VideoEditor

/-- A file path, by name family.  `upload` is a file stored by multer in the
uploads folder; the other constructors are the paths built by the handler
(src/backend/index.js lines 43, 58, 115-118, 125-128, 150-151). -/
inductive FPath where
  | upload (name : String)
  | imgSeg (ts i : Nat)
  | vidSeg (ts i : Nat)
  | concatList (ts : Nat)
  | merged (ts : Nat)
  | final (ts : Nat)
deriving DecidableEq, Repr

/-- Content of a file on disk, as the external tool sees it. -/
inductive MediaContent where
  | image
  | video (width height : Nat) (fps : Int) (duration : Int) (hasAudio : Bool)
  | audioClip (duration : Int)
  | other
deriving DecidableEq, Repr

/-- Duration of a stream in seconds (still images and unknown data have none; integer seconds in the model). -/
def mediaDuration : MediaContent → Int
  | MediaContent.image => 0
  | MediaContent.video _ _ _ d _ => d
  | MediaContent.audioClip d => d
  | MediaContent.other => 0

/-- Whether the content carries an audio stream. -/
def mediaHasAudio : MediaContent → Bool
  | MediaContent.video _ _ _ _ a => a
  | MediaContent.audioClip _ => true
  | _ => false

/-- One uploaded file as multer hands it to the handler: its stored name in
the uploads folder and its MIME type (`file.mimetype || ""`). -/
structure UploadedFile where
  name : String
  mimetype : String
deriving DecidableEq, Repr

/-- Path of an uploaded file (multer diskStorage destination is the uploads
folder, src/backend/index.js lines 28-36). -/
def uploadPath (f : UploadedFile) : FPath := FPath.upload f.name

/-- The two multipart fields of `POST /create-video`
(src/backend/index.js lines 73-79). -/
structure RequestFiles where
  media : List UploadedFile
  audio : List UploadedFile
deriving Repr

/-- A normalized video segment written to the temp folder. -/
structure Segment where
  path : FPath
  width : Nat
  height : Nat
  fps : Nat
  pixFmt : String
  duration : Int
  hasAudio : Bool
deriving DecidableEq, Repr

/-- A video track (merged intermediate or final artifact). -/
structure Track where
  width : Nat
  height : Nat
  fps : Nat
  pixFmt : String
  videoCodec : String
  audioCodec : Option String
  duration : Int
deriving DecidableEq, Repr

/-- Success/failure oracle for the external tool invocations of one request:
per-index outcome for the per-item normalizer calls, and one outcome each
for the concat and mux invocations. -/
structure Oracle where
  imageOk : Nat → Bool
  videoOk : Nat → Bool
  concatOk : Bool
  muxOk : Bool

/-- Whether `pre` is a prefix of `s`, on character lists. -/
def strStartsWith : List Char → List Char → Bool
  | [], _ => true
  | _ :: _, [] => false
  | a :: pr, b :: rest => a = b && strStartsWith pr rest

/-- Embeds the JavaScript `mime.startsWith(pre)` test used by the handler
(src/backend/index.js lines 97 and 100). -/
def mimeStartsWith (m pre : String) : Bool :=
  strStartsWith pre.data m.data

/-- Embeds `createVideoFromImage` (src/backend/index.js lines 41-53):
ffmpeg on the still image with inputOptions `-loop 1`, outputOptions
`-t 3` and `-r 30`, videoFilters `scale=1280:720,format=yuv420p`, saved to
`temp/img-<ts>-<i>.mp4`.  The looped image yields a 3-second 30fps
1280x720 yuv420p video with no audio stream. -/
def createVideoFromImage (ts index : Nat) : Segment :=
  { path := FPath.imgSeg ts index
    width := 1280
    height := 720
    fps := 30
    pixFmt := "yuv420p"
    duration := 3
    hasAudio := false }

/-- Embeds `normalizeVideo` (src/backend/index.js lines 56-68): ffmpeg on
the input video with outputOptions `-r 30`, videoFilters
`scale=1280:720,format=yuv420p`, audioCodec `aac`, saved to
`temp/vid-<ts>-<i>.mp4`.  No `-t` option, so the input duration is kept;
the frame size, rate and pixel format are forced. -/
def normalizeVideo (env : FPath → MediaContent) (inputPath : FPath)
    (ts index : Nat) : Segment :=
  { path := FPath.vidSeg ts index
    width := 1280
    height := 720
    fps := 30
    pixFmt := "yuv420p"
    duration := mediaDuration (env inputPath)
    hasAudio := mediaHasAudio (env inputPath) }

/-- Embeds the concat invocation (src/backend/index.js lines 130-147):
concat demuxer over the manifest with outputOptions `-c:v libx264`,
`-pix_fmt yuv420p`, `-r 30`.  Durations add; no scale filter is given, so
the frame size comes from the (already normalized) input segments, here
the first one. -/
def concatSegments (segs : List Segment) : Track :=
  { width := match segs with | [] => 0 | s :: _ => s.width
    height := match segs with | [] => 0 | s :: _ => s.height
    fps := 30
    pixFmt := "yuv420p"
    videoCodec := "libx264"
    audioCodec := if segs.any Segment.hasAudio then some "aac" else none
    duration := (segs.map Segment.duration).sum }

/-- Embeds the mux invocation (src/backend/index.js lines 153-170): inputs
are the merged video and the audio file, outputOptions `-c:v copy`,
`-c:a aac`, `-shortest`.  The video stream is copied unchanged, the audio
is re-encoded to aac, and `-shortest` truncates to the shorter input. -/
def muxAudio (mergedTrack : Track) (audioDuration : Int) : Track :=
  { width := mergedTrack.width
    height := mergedTrack.height
    fps := mergedTrack.fps
    pixFmt := mergedTrack.pixFmt
    videoCodec := mergedTrack.videoCodec
    audioCodec := some "aac"
    duration := min mergedTrack.duration audioDuration }

/-- Result of the stage-1 loop (src/backend/index.js lines 92-106):
segments produced so far (in order), whether every awaited call
succeeded, and how many external-tool invocations were made. -/
structure LoopOut where
  segs : List Segment
  ok : Bool
  calls : Nat
deriving Repr

/-- Embeds the stage-1 loop (src/backend/index.js lines 92-106): for each
media file in order, an `image/*` item is turned into a segment by
`createVideoFromImage`, a `video/*` item by `normalizeVideo`, anything
else is skipped with only a log line.  A rejected promise aborts the loop
(the `await` throws into the catch block); segments already produced stay
on disk. -/
def runLoop (env : FPath → MediaContent) (o : Oracle) (ts : Nat) :
    List UploadedFile → Nat → LoopOut
  | [], _ => ⟨[], true, 0⟩
  | f :: rest, i =>
    if mimeStartsWith f.mimetype "image/" then
      if o.imageOk i then
        let out := runLoop env o ts rest (i + 1)
        ⟨createVideoFromImage ts i :: out.segs, out.ok, out.calls + 1⟩
      else ⟨[], false, 1⟩
    else if mimeStartsWith f.mimetype "video/" then
      if o.videoOk i then
        let out := runLoop env o ts rest (i + 1)
        ⟨normalizeVideo env (uploadPath f) ts i :: out.segs, out.ok, out.calls + 1⟩
      else ⟨[], false, 1⟩
    else
      runLoop env o ts rest (i + 1)

/-- `fs.unlinkSync` / guarded unlink: the path no longer exists afterwards. -/
def unlink (p : FPath) (disk : List FPath) : List FPath :=
  disk.filter (fun q => q ≠ p)

/-- Unlink every path of a list in order (the `forEach` cleanup loops,
src/backend/index.js lines 187-192). -/
def unlinkAll (ps : List FPath) (disk : List FPath) : List FPath :=
  ps.foldl (fun d p => unlink p d) disk

/-- The HTTP response of the handler. -/
inductive HttpResult where
  | badRequest (error : String)
  | serverError (error : String)
  | fileDownload (contentType fileName : String) (path : FPath)
deriving DecidableEq, Repr

/-- Everything observable about one run of the handler: the HTTP response,
the disk contents when the request is over (after the stream-close cleanup
callback on success), the number of external-tool invocations, and the
intermediate artifacts that were produced. -/
structure RunResult where
  response : HttpResult
  fs : List FPath
  toolCalls : Nat
  segments : List Segment
  manifestPaths : Option (List FPath)
  mergedTrack : Option Track
  finalTrack : Option Track

/-- Embeds the `POST /create-video` handler (src/backend/index.js
lines 77-203) end to end.

`env` gives the content of files on disk, `o` the outcome of each
external-tool invocation, `ts` the timestamp used in generated names,
`disk0` the disk contents when the handler starts (the uploads are
already stored by multer).

Control flow follows the source: the two 400 guards (lines 81-86); the
stage-1 loop, whose first rejected promise lands in the catch block
(500, line 201) leaving already-written files behind; the empty-segments
400 (lines 108-112); manifest write (lines 115-122); concat (lines
124-147) and mux (lines 149-170), each jumping to the catch block on
failure with no cleanup; on success, delivery with the fixed headers
(lines 172-177) and, when the read stream closes, deletion of the audio
upload, the media uploads, the segments and the concat list (lines
183-198) — the merged intermediate deletion is commented out (line 194)
and the output file is never deleted. -/
def createVideo (env : FPath → MediaContent) (o : Oracle) (ts : Nat)
    (req : RequestFiles) (disk0 : List FPath) : RunResult :=
  if req.media.isEmpty then
    { response := HttpResult.badRequest "No media files received."
      fs := disk0, toolCalls := 0, segments := []
      manifestPaths := none, mergedTrack := none, finalTrack := none }
  else
    match req.audio with
    | [] =>
      { response := HttpResult.badRequest "No audio file received."
        fs := disk0, toolCalls := 0, segments := []
        manifestPaths := none, mergedTrack := none, finalTrack := none }
    | audioFile :: _ =>
      let out := runLoop env o ts req.media 0
      let disk1 := disk0 ++ out.segs.map Segment.path
      if out.ok = false then
        { response := HttpResult.serverError "Failed to create video."
          fs := disk1, toolCalls := out.calls, segments := out.segs
          manifestPaths := none, mergedTrack := none, finalTrack := none }
      else if out.segs.isEmpty then
        { response := HttpResult.badRequest
            "No valid media (image/video) files to process."
          fs := disk1, toolCalls := out.calls, segments := out.segs
          manifestPaths := none, mergedTrack := none, finalTrack := none }
      else
        let clp := FPath.concatList ts
        let segPaths := out.segs.map Segment.path
        let disk2 := disk1 ++ [clp]
        if o.concatOk = false then
          { response := HttpResult.serverError "Failed to create video."
            fs := disk2, toolCalls := out.calls + 1, segments := out.segs
            manifestPaths := some segPaths, mergedTrack := none
            finalTrack := none }
        else
          let mergedP := FPath.merged ts
          let mtr := concatSegments out.segs
          let disk3 := disk2 ++ [mergedP]
          if o.muxOk = false then
            { response := HttpResult.serverError "Failed to create video."
              fs := disk3, toolCalls := out.calls + 2, segments := out.segs
              manifestPaths := some segPaths, mergedTrack := some mtr
              finalTrack := none }
          else
            let outP := FPath.final ts
            let ftr := muxAudio mtr (mediaDuration (env (uploadPath audioFile)))
            let disk4 := disk3 ++ [outP]
            let disk5 :=
              unlink clp
                (unlinkAll segPaths
                  (unlinkAll (req.media.map uploadPath)
                    (unlink (uploadPath audioFile) disk4)))
            { response := HttpResult.fileDownload "video/mp4" "final-video.mp4" outP
              fs := disk5, toolCalls := out.calls + 2, segments := out.segs
              manifestPaths := some segPaths, mergedTrack := some mtr
              finalTrack := some ftr }

/-! ### The concat manifest and its quoting

The handler serializes the segment paths as
`segmentPaths.map(p => "file " + q + p.replace(sq, sq bs sq sq) + q).join(nl)`
(src/backend/index.js lines 119-122, where `q` is the single-quote
character): each path is wrapped in single quotes with every embedded
single quote replaced by quote-backslash-quote-quote.  We model the text
as `List Char` and define the characters by code point. -/

/-- The single-quote character (code point 39). -/
def sq : Char := Char.ofNat 39

/-- The backslash character (code point 92). -/
def bs : Char := Char.ofNat 92

/-- The newline character used by `join` (code point 10). -/
def nl : Char := Char.ofNat 10

/-- Embeds `p.replace(/quote/g, quote backslash quote quote)`
(src/backend/index.js line 120): every single quote in the path becomes
the four characters quote, backslash, quote, quote. -/
def escapeQuotes : List Char → List Char
  | [] => []
  | c :: cs =>
    if c = sq then sq :: bs :: sq :: sq :: escapeQuotes cs
    else c :: escapeQuotes cs

/-- One manifest line for a path (src/backend/index.js line 120):
`file ` followed by the single-quoted, quote-escaped path. -/
def fileLine (p : List Char) : List Char :=
  "file ".data ++ (sq :: (escapeQuotes p ++ [sq]))

/-- Render an `FPath` to the character list of the path string the source
builds (directory prefix plus name stem, timestamp and index). -/
def renderPath : FPath → List Char
  | FPath.upload n => ("uploads/" ++ n).data
  | FPath.imgSeg ts i =>
      ("temp/img-" ++ toString ts ++ "-" ++ toString i ++ ".mp4").data
  | FPath.vidSeg ts i =>
      ("temp/vid-" ++ toString ts ++ "-" ++ toString i ++ ".mp4").data
  | FPath.concatList ts => ("temp/concat-list-" ++ toString ts ++ ".txt").data
  | FPath.merged ts => ("temp/merged-" ++ toString ts ++ ".mp4").data
  | FPath.final ts => ("outputs/final-" ++ toString ts ++ ".mp4").data

/-- The concat manifest text written by `fs.writeFileSync`
(src/backend/index.js lines 119-122): one `fileLine` per segment path, in
order, joined with newlines. -/
def renderManifest (ps : List FPath) : List Char :=
  List.intercalate [nl] (ps.map fun p => fileLine (renderPath p))

/-- State of the list-file tokenizer: between single quotes, plain text,
or right after a backslash. -/
inductive TokMode where
  | quoted
  | plain
  | escaped
deriving DecidableEq, Repr

/-- Whether a character ends an unquoted path token (the whitespace set of
the external tool's tokenizer: space, tab, newline, carriage return, form
feed, vertical tab). -/
def isTerm (c : Char) : Prop :=
  c = Char.ofNat 32 ∨ c = Char.ofNat 9 ∨ c = nl ∨
    c = Char.ofNat 13 ∨ c = Char.ofNat 12 ∨ c = Char.ofNat 11

instance (c : Char) : Decidable (isTerm c) := by
  unfold isTerm
  infer_instance

/-- Modelled from the spec: the external tool's list-file parser for the
path token of a `file` directive (the spec's quoting invariant, §3 and
§8.9).  The tool itself is not part of this repository; per its
documented list-file syntax the token ends at unquoted whitespace, a
backslash escapes the next character, and text between single quotes is
taken literally. -/
def fftokenAux : TokMode → List Char → List Char
  | TokMode.escaped, [] => [bs]
  | _, [] => []
  | TokMode.escaped, d :: ds => d :: fftokenAux TokMode.plain ds
  | TokMode.quoted, c :: cs =>
    if c = sq then fftokenAux TokMode.plain cs
    else c :: fftokenAux TokMode.quoted cs
  | TokMode.plain, c :: cs =>
    if isTerm c then []
    else if c = sq then fftokenAux TokMode.quoted cs
    else if c = bs then fftokenAux TokMode.escaped cs
    else c :: fftokenAux TokMode.plain cs

/-- Modelled from the spec: parse one manifest line of the external tool,
recovering the path named by a `file` directive. -/
def parseFileLine (line : List Char) : Option (List Char) :=
  match line with
  | f :: i :: l :: e :: s :: rest =>
    if [f, i, l, e, s] = "file ".data then
      some (fftokenAux TokMode.plain rest)
    else none
  | _ => none

lemma sq_not_term : ¬ isTerm sq := by decide

lemma bs_not_term : ¬ isTerm bs := by decide

lemma bs_ne_sq : bs ≠ sq := by decide

lemma fftokenAux_quoted_sq (cs : List Char) :
    fftokenAux TokMode.quoted (sq :: cs) = fftokenAux TokMode.plain cs := by
  simp [fftokenAux]

lemma fftokenAux_quoted_ne {c : Char} (hc : c ≠ sq) (cs : List Char) :
    fftokenAux TokMode.quoted (c :: cs) = c :: fftokenAux TokMode.quoted cs := by
  simp [fftokenAux, hc]

lemma fftokenAux_plain_sq (cs : List Char) :
    fftokenAux TokMode.plain (sq :: cs) = fftokenAux TokMode.quoted cs := by
  simp [fftokenAux, sq_not_term]

lemma fftokenAux_plain_bs (cs : List Char) :
    fftokenAux TokMode.plain (bs :: cs) = fftokenAux TokMode.escaped cs := by
  simp [fftokenAux, bs_not_term, bs_ne_sq]

lemma fftokenAux_escaped_cons (d : Char) (ds : List Char) :
    fftokenAux TokMode.escaped (d :: ds) = d :: fftokenAux TokMode.plain ds := by
  simp [fftokenAux]

lemma escapeQuotes_cons_sq (cs : List Char) :
    escapeQuotes (sq :: cs) = sq :: bs :: sq :: sq :: escapeQuotes cs := by
  simp [escapeQuotes]

lemma escapeQuotes_cons_ne {c : Char} (hc : c ≠ sq) (cs : List Char) :
    escapeQuotes (c :: cs) = c :: escapeQuotes cs := by
  simp [escapeQuotes, hc]

lemma fftokenAux_quoted_escape (p : List Char) (suffix : List Char) :
    fftokenAux TokMode.quoted (escapeQuotes p ++ (sq :: suffix)) =
      p ++ fftokenAux TokMode.plain suffix := by
  induction p with
  | nil =>
    simp only [escapeQuotes, List.nil_append]
    rw [fftokenAux_quoted_sq]
  | cons c cs ih =>
    by_cases hc : c = sq
    · subst hc
      rw [escapeQuotes_cons_sq, List.cons_append, List.cons_append,
        List.cons_append, List.cons_append, fftokenAux_quoted_sq,
        fftokenAux_plain_bs, fftokenAux_escaped_cons, fftokenAux_plain_sq, ih]
      simp
    · rw [escapeQuotes_cons_ne hc, List.cons_append, fftokenAux_quoted_ne hc, ih]
      simp

/-! ### Helper lemmas about the disk and the stage-1 loop -/

lemma mem_unlink {p q : FPath} {disk : List FPath} :
    p ∈ unlink q disk ↔ p ∈ disk ∧ p ≠ q := by
  simp [unlink]

lemma mem_unlinkAll {p : FPath} {ps disk : List FPath} :
    p ∈ unlinkAll ps disk ↔ p ∈ disk ∧ p ∉ ps := by
  induction ps generalizing disk with
  | nil => simp [unlinkAll]
  | cons q qs ih =>
    simp only [unlinkAll, List.foldl_cons] at *
    rw [ih]
    simp only [mem_unlink, List.mem_cons]
    tauto

/-- The segment that the stage-1 loop produces for the media item at
index `i`, if any: an image segment for `image/*`, a normalized video
segment for `video/*`, nothing otherwise. -/
def segOf (env : FPath → MediaContent) (ts : Nat) (i : Nat)
    (f : UploadedFile) : Option Segment :=
  if mimeStartsWith f.mimetype "image/" then some (createVideoFromImage ts i)
  else if mimeStartsWith f.mimetype "video/" then
    some (normalizeVideo env (uploadPath f) ts i)
  else none

lemma runLoop_cons_img {env : FPath → MediaContent} {o : Oracle} {ts : Nat}
    {f : UploadedFile} (rest : List UploadedFile) (i : Nat)
    (himg : mimeStartsWith f.mimetype "image/" = true)
    (hio : o.imageOk i = true) :
    runLoop env o ts (f :: rest) i =
      ⟨createVideoFromImage ts i :: (runLoop env o ts rest (i + 1)).segs,
        (runLoop env o ts rest (i + 1)).ok,
        (runLoop env o ts rest (i + 1)).calls + 1⟩ := by
  simp [runLoop, himg, hio]

lemma runLoop_cons_img_fail {env : FPath → MediaContent} {o : Oracle}
    {ts : Nat} {f : UploadedFile} (rest : List UploadedFile) (i : Nat)
    (himg : mimeStartsWith f.mimetype "image/" = true)
    (hio : o.imageOk i = false) :
    runLoop env o ts (f :: rest) i = ⟨[], false, 1⟩ := by
  simp [runLoop, himg, hio]

lemma runLoop_cons_vid {env : FPath → MediaContent} {o : Oracle} {ts : Nat}
    {f : UploadedFile} (rest : List UploadedFile) (i : Nat)
    (himg : mimeStartsWith f.mimetype "image/" = false)
    (hvid : mimeStartsWith f.mimetype "video/" = true)
    (hvo : o.videoOk i = true) :
    runLoop env o ts (f :: rest) i =
      ⟨normalizeVideo env (uploadPath f) ts i :: (runLoop env o ts rest (i + 1)).segs,
        (runLoop env o ts rest (i + 1)).ok,
        (runLoop env o ts rest (i + 1)).calls + 1⟩ := by
  simp [runLoop, himg, hvid, hvo]

lemma runLoop_cons_vid_fail {env : FPath → MediaContent} {o : Oracle}
    {ts : Nat} {f : UploadedFile} (rest : List UploadedFile) (i : Nat)
    (himg : mimeStartsWith f.mimetype "image/" = false)
    (hvid : mimeStartsWith f.mimetype "video/" = true)
    (hvo : o.videoOk i = false) :
    runLoop env o ts (f :: rest) i = ⟨[], false, 1⟩ := by
  simp [runLoop, himg, hvid, hvo]

lemma runLoop_cons_skip {env : FPath → MediaContent} {o : Oracle} {ts : Nat}
    {f : UploadedFile} (rest : List UploadedFile) (i : Nat)
    (himg : mimeStartsWith f.mimetype "image/" = false)
    (hvid : mimeStartsWith f.mimetype "video/" = false) :
    runLoop env o ts (f :: rest) i = runLoop env o ts rest (i + 1) := by
  simp [runLoop, himg, hvid]

lemma runLoop_ok_segments (env : FPath → MediaContent) (o : Oracle) (ts : Nat) :
    ∀ (l : List UploadedFile) (i : Nat),
      (runLoop env o ts l i).ok = true →
      (runLoop env o ts l i).segs =
        (l.enumFrom i).filterMap fun p => segOf env ts p.1 p.2 := by
  intro l
  induction l with
  | nil => intro i _; simp [runLoop]
  | cons f rest ih =>
    intro i hok
    rcases himg : mimeStartsWith f.mimetype "image/" with _ | _
    · rcases hvid : mimeStartsWith f.mimetype "video/" with _ | _
      · rw [runLoop_cons_skip rest i himg hvid] at hok ⊢
        rw [ih (i + 1) hok]
        simp [List.enumFrom, segOf, himg, hvid]
      · rcases hvo : o.videoOk i with _ | _
        · rw [runLoop_cons_vid_fail rest i himg hvid hvo] at hok
          simp at hok
        · rw [runLoop_cons_vid rest i himg hvid hvo] at hok ⊢
          simp only [LoopOut.segs, LoopOut.ok] at hok ⊢
          rw [ih (i + 1) hok]
          simp [List.enumFrom, segOf, himg, hvid]
    · rcases hio : o.imageOk i with _ | _
      · rw [runLoop_cons_img_fail rest i himg hio] at hok
        simp at hok
      · rw [runLoop_cons_img rest i himg hio] at hok ⊢
        simp only [LoopOut.segs, LoopOut.ok] at hok ⊢
        rw [ih (i + 1) hok]
        simp [List.enumFrom, segOf, himg]

/-- Every segment the loop produces (also on a run that later fails) has
the fixed output geometry and a temp-folder segment path. -/
lemma runLoop_segment_shape (env : FPath → MediaContent) (o : Oracle) (ts : Nat) :
    ∀ (l : List UploadedFile) (i : Nat) (s : Segment),
      s ∈ (runLoop env o ts l i).segs →
      s.width = 1280 ∧ s.height = 720 ∧ s.fps = 30 ∧ s.pixFmt = "yuv420p" ∧
        ∃ k, s.path = FPath.imgSeg ts k ∨ s.path = FPath.vidSeg ts k := by
  intro l
  induction l with
  | nil => intro i s hs; simp [runLoop] at hs
  | cons f rest ih =>
    intro i s hs
    rcases himg : mimeStartsWith f.mimetype "image/" with _ | _
    · rcases hvid : mimeStartsWith f.mimetype "video/" with _ | _
      · rw [runLoop_cons_skip rest i himg hvid] at hs
        exact ih (i + 1) s hs
      · rcases hvo : o.videoOk i with _ | _
        · rw [runLoop_cons_vid_fail rest i himg hvid hvo] at hs
          simp at hs
        · rw [runLoop_cons_vid rest i himg hvid hvo] at hs
          rcases List.mem_cons.mp hs with hs | hs
          · subst hs
            exact ⟨rfl, rfl, rfl, rfl, i, Or.inr rfl⟩
          · exact ih (i + 1) s hs
    · rcases hio : o.imageOk i with _ | _
      · rw [runLoop_cons_img_fail rest i himg hio] at hs
        simp at hs
      · rw [runLoop_cons_img rest i himg hio] at hs
        rcases List.mem_cons.mp hs with hs | hs
        · subst hs
          exact ⟨rfl, rfl, rfl, rfl, i, Or.inl rfl⟩
        · exact ih (i + 1) s hs

/-- If every item is an image and the loop succeeds, it produces one
3-second segment per item. -/
lemma runLoop_all_images (env : FPath → MediaContent) (o : Oracle) (ts : Nat) :
    ∀ (l : List UploadedFile) (i : Nat),
      (∀ f ∈ l, mimeStartsWith f.mimetype "image/" = true) →
      (runLoop env o ts l i).ok = true →
      (runLoop env o ts l i).segs.length = l.length ∧
        ∀ s ∈ (runLoop env o ts l i).segs, s.duration = 3 := by
  intro l
  induction l with
  | nil => intro i _ _; simp [runLoop]
  | cons f rest ih =>
    intro i hall hok
    have himg : mimeStartsWith f.mimetype "image/" = true := hall f (by simp)
    rcases hio : o.imageOk i with _ | _
    · rw [runLoop_cons_img_fail rest i himg hio] at hok
      simp at hok
    · rw [runLoop_cons_img rest i himg hio] at hok ⊢
      simp only [LoopOut.segs, LoopOut.ok] at hok ⊢
      obtain ⟨hlen, hdur⟩ := ih (i + 1) (fun g hg => hall g (by simp [hg])) hok
      refine ⟨by simp [hlen], ?_⟩
      intro s hs
      rcases List.mem_cons.mp hs with hs | hs
      · subst hs; rfl
      · exact hdur s hs

/-- If no item is an image or a video, the loop makes no tool call and
produces no segment. -/
lemma runLoop_all_unsupported (env : FPath → MediaContent) (o : Oracle)
    (ts : Nat) :
    ∀ (l : List UploadedFile) (i : Nat),
      (∀ f ∈ l, mimeStartsWith f.mimetype "image/" = false ∧
        mimeStartsWith f.mimetype "video/" = false) →
      runLoop env o ts l i = ⟨[], true, 0⟩ := by
  intro l
  induction l with
  | nil => intro i _; simp [runLoop]
  | cons f rest ih =>
    intro i hall
    obtain ⟨himg, hvid⟩ := hall f (by simp)
    rw [runLoop_cons_skip rest i himg hvid]
    exact ih (i + 1) (fun g hg => hall g (by simp [hg]))

/-! ### Branch lemmas for the handler -/

lemma createVideo_no_media {env : FPath → MediaContent} {o : Oracle} {ts : Nat}
    {req : RequestFiles} {disk0 : List FPath} (hm : req.media = []) :
    createVideo env o ts req disk0 =
      { response := HttpResult.badRequest "No media files received."
        fs := disk0, toolCalls := 0, segments := []
        manifestPaths := none, mergedTrack := none, finalTrack := none } := by
  simp [createVideo, hm]

lemma createVideo_no_audio {env : FPath → MediaContent} {o : Oracle} {ts : Nat}
    {req : RequestFiles} {disk0 : List FPath} (hm : req.media ≠ [])
    (ha : req.audio = []) :
    createVideo env o ts req disk0 =
      { response := HttpResult.badRequest "No audio file received."
        fs := disk0, toolCalls := 0, segments := []
        manifestPaths := none, mergedTrack := none, finalTrack := none } := by
  have hm2 : req.media.isEmpty = false := by
    simpa [List.isEmpty_iff] using hm
  simp [createVideo, hm2, ha]

lemma createVideo_loop_fail {env : FPath → MediaContent} {o : Oracle} {ts : Nat}
    {req : RequestFiles} {disk0 : List FPath} {af : UploadedFile}
    {arest : List UploadedFile} (hm : req.media ≠ [])
    (ha : req.audio = af :: arest)
    (hok : (runLoop env o ts req.media 0).ok = false) :
    createVideo env o ts req disk0 =
      { response := HttpResult.serverError "Failed to create video."
        fs := disk0 ++ (runLoop env o ts req.media 0).segs.map Segment.path
        toolCalls := (runLoop env o ts req.media 0).calls
        segments := (runLoop env o ts req.media 0).segs
        manifestPaths := none, mergedTrack := none, finalTrack := none } := by
  have hm2 : req.media.isEmpty = false := by
    simpa [List.isEmpty_iff] using hm
  simp [createVideo, hm2, ha, hok]

lemma createVideo_no_valid {env : FPath → MediaContent} {o : Oracle} {ts : Nat}
    {req : RequestFiles} {disk0 : List FPath} {af : UploadedFile}
    {arest : List UploadedFile} (hm : req.media ≠ [])
    (ha : req.audio = af :: arest)
    (hok : (runLoop env o ts req.media 0).ok = true)
    (hseg : (runLoop env o ts req.media 0).segs = []) :
    createVideo env o ts req disk0 =
      { response := HttpResult.badRequest
          "No valid media (image/video) files to process."
        fs := disk0
        toolCalls := (runLoop env o ts req.media 0).calls
        segments := []
        manifestPaths := none, mergedTrack := none, finalTrack := none } := by
  have hm2 : req.media.isEmpty = false := by
    simpa [List.isEmpty_iff] using hm
  simp [createVideo, hm2, ha, hok, hseg]

lemma createVideo_concat_fail {env : FPath → MediaContent} {o : Oracle}
    {ts : Nat} {req : RequestFiles} {disk0 : List FPath} {af : UploadedFile}
    {arest : List UploadedFile} (hm : req.media ≠ [])
    (ha : req.audio = af :: arest)
    (hok : (runLoop env o ts req.media 0).ok = true)
    (hseg : (runLoop env o ts req.media 0).segs ≠ [])
    (hc : o.concatOk = false) :
    createVideo env o ts req disk0 =
      { response := HttpResult.serverError "Failed to create video."
        fs := disk0 ++ (runLoop env o ts req.media 0).segs.map Segment.path
                ++ [FPath.concatList ts]
        toolCalls := (runLoop env o ts req.media 0).calls + 1
        segments := (runLoop env o ts req.media 0).segs
        manifestPaths := some ((runLoop env o ts req.media 0).segs.map Segment.path)
        mergedTrack := none, finalTrack := none } := by
  have hm2 : req.media.isEmpty = false := by
    simpa [List.isEmpty_iff] using hm
  have hseg2 : (runLoop env o ts req.media 0).segs.isEmpty = false := by
    simpa [List.isEmpty_iff] using hseg
  simp [createVideo, hm2, ha, hok, hseg2, hc]

lemma createVideo_mux_fail {env : FPath → MediaContent} {o : Oracle}
    {ts : Nat} {req : RequestFiles} {disk0 : List FPath} {af : UploadedFile}
    {arest : List UploadedFile} (hm : req.media ≠ [])
    (ha : req.audio = af :: arest)
    (hok : (runLoop env o ts req.media 0).ok = true)
    (hseg : (runLoop env o ts req.media 0).segs ≠ [])
    (hc : o.concatOk = true) (hx : o.muxOk = false) :
    createVideo env o ts req disk0 =
      { response := HttpResult.serverError "Failed to create video."
        fs := disk0 ++ (runLoop env o ts req.media 0).segs.map Segment.path
                ++ [FPath.concatList ts] ++ [FPath.merged ts]
        toolCalls := (runLoop env o ts req.media 0).calls + 2
        segments := (runLoop env o ts req.media 0).segs
        manifestPaths := some ((runLoop env o ts req.media 0).segs.map Segment.path)
        mergedTrack := some (concatSegments (runLoop env o ts req.media 0).segs)
        finalTrack := none } := by
  have hm2 : req.media.isEmpty = false := by
    simpa [List.isEmpty_iff] using hm
  have hseg2 : (runLoop env o ts req.media 0).segs.isEmpty = false := by
    simpa [List.isEmpty_iff] using hseg
  simp [createVideo, hm2, ha, hok, hseg2, hc, hx]

lemma createVideo_success_eq {env : FPath → MediaContent} {o : Oracle}
    {ts : Nat} {req : RequestFiles} {disk0 : List FPath} {af : UploadedFile}
    {arest : List UploadedFile} (hm : req.media ≠ [])
    (ha : req.audio = af :: arest)
    (hok : (runLoop env o ts req.media 0).ok = true)
    (hseg : (runLoop env o ts req.media 0).segs ≠ [])
    (hc : o.concatOk = true) (hx : o.muxOk = true) :
    createVideo env o ts req disk0 =
      { response := HttpResult.fileDownload "video/mp4" "final-video.mp4"
          (FPath.final ts)
        fs := unlink (FPath.concatList ts)
                (unlinkAll ((runLoop env o ts req.media 0).segs.map Segment.path)
                  (unlinkAll (req.media.map uploadPath)
                    (unlink (uploadPath af)
                      (disk0 ++ (runLoop env o ts req.media 0).segs.map Segment.path
                        ++ [FPath.concatList ts] ++ [FPath.merged ts]
                        ++ [FPath.final ts]))))
        toolCalls := (runLoop env o ts req.media 0).calls + 2
        segments := (runLoop env o ts req.media 0).segs
        manifestPaths := some ((runLoop env o ts req.media 0).segs.map Segment.path)
        mergedTrack := some (concatSegments (runLoop env o ts req.media 0).segs)
        finalTrack := some (muxAudio (concatSegments (runLoop env o ts req.media 0).segs)
          (mediaDuration (env (uploadPath af)))) } := by
  have hm2 : req.media.isEmpty = false := by
    simpa [List.isEmpty_iff] using hm
  have hseg2 : (runLoop env o ts req.media 0).segs.isEmpty = false := by
    simpa [List.isEmpty_iff] using hseg
  simp [createVideo, hm2, ha, hok, hseg2, hc, hx]

/-- A manifest is only ever produced from a loop whose every awaited call
succeeded, and it lists exactly the produced segment paths in order. -/
lemma manifest_characterization {env : FPath → MediaContent} {o : Oracle}
    {ts : Nat} {req : RequestFiles} {disk0 : List FPath} {ps : List FPath}
    (hm : (createVideo env o ts req disk0).manifestPaths = some ps) :
    (runLoop env o ts req.media 0).ok = true ∧
      ps = (runLoop env o ts req.media 0).segs.map Segment.path := by
  by_cases hmed : req.media = []
  · rw [createVideo_no_media hmed] at hm
    simp at hm
  by_cases haud : req.audio = []
  · rw [createVideo_no_audio hmed haud] at hm
    simp at hm
  obtain ⟨af, arest, ha⟩ := List.exists_cons_of_ne_nil haud
  rcases Or.symm (Bool.eq_false_or_eq_true (runLoop env o ts req.media 0).ok) with hok | hok
  · rw [createVideo_loop_fail hmed ha hok] at hm
    simp at hm
  by_cases hsegs : (runLoop env o ts req.media 0).segs = []
  · rw [createVideo_no_valid hmed ha hok hsegs] at hm
    simp at hm
  rcases Or.symm (Bool.eq_false_or_eq_true o.concatOk) with hc | hc
  · rw [createVideo_concat_fail hmed ha hok hsegs hc] at hm
    simp at hm
    exact ⟨hok, hm.symm⟩
  rcases Or.symm (Bool.eq_false_or_eq_true o.muxOk) with hx | hx
  · rw [createVideo_mux_fail hmed ha hok hsegs hc hx] at hm
    simp at hm
    exact ⟨hok, hm.symm⟩
  · rw [createVideo_success_eq hmed ha hok hsegs hc hx] at hm
    simp at hm
    exact ⟨hok, hm.symm⟩

/-- A merged track is only ever produced after a fully successful loop on a
non-empty segment list, and it is the concatenation of those segments. -/
lemma merged_characterization {env : FPath → MediaContent} {o : Oracle}
    {ts : Nat} {req : RequestFiles} {disk0 : List FPath} {t : Track}
    (hm : (createVideo env o ts req disk0).mergedTrack = some t) :
    (runLoop env o ts req.media 0).ok = true ∧
      (runLoop env o ts req.media 0).segs ≠ [] ∧
      t = concatSegments (runLoop env o ts req.media 0).segs := by
  by_cases hmed : req.media = []
  · rw [createVideo_no_media hmed] at hm
    simp at hm
  by_cases haud : req.audio = []
  · rw [createVideo_no_audio hmed haud] at hm
    simp at hm
  obtain ⟨af, arest, ha⟩ := List.exists_cons_of_ne_nil haud
  rcases Or.symm (Bool.eq_false_or_eq_true (runLoop env o ts req.media 0).ok) with hok | hok
  · rw [createVideo_loop_fail hmed ha hok] at hm
    simp at hm
  by_cases hsegs : (runLoop env o ts req.media 0).segs = []
  · rw [createVideo_no_valid hmed ha hok hsegs] at hm
    simp at hm
  rcases Or.symm (Bool.eq_false_or_eq_true o.concatOk) with hc | hc
  · rw [createVideo_concat_fail hmed ha hok hsegs hc] at hm
    simp at hm
  rcases Or.symm (Bool.eq_false_or_eq_true o.muxOk) with hx | hx
  · rw [createVideo_mux_fail hmed ha hok hsegs hc hx] at hm
    simp at hm
    exact ⟨hok, hsegs, hm.symm⟩
  · rw [createVideo_success_eq hmed ha hok hsegs hc hx] at hm
    simp at hm
    exact ⟨hok, hsegs, hm.symm⟩

/-- A download response only arises on the fully successful path, and then
the whole run result is the success record. -/
lemma success_characterization {env : FPath → MediaContent} {o : Oracle}
    {ts : Nat} {req : RequestFiles} {disk0 : List FPath}
    {ct fn : String} {op : FPath}
    (hr : (createVideo env o ts req disk0).response =
      HttpResult.fileDownload ct fn op) :
    ∃ af arest, req.audio = af :: arest ∧ req.media ≠ [] ∧
      (runLoop env o ts req.media 0).ok = true ∧
      (runLoop env o ts req.media 0).segs ≠ [] ∧
      o.concatOk = true ∧ o.muxOk = true ∧ op = FPath.final ts ∧
      createVideo env o ts req disk0 =
        { response := HttpResult.fileDownload "video/mp4" "final-video.mp4"
            (FPath.final ts)
          fs := unlink (FPath.concatList ts)
                  (unlinkAll ((runLoop env o ts req.media 0).segs.map Segment.path)
                    (unlinkAll (req.media.map uploadPath)
                      (unlink (uploadPath af)
                        (disk0 ++ (runLoop env o ts req.media 0).segs.map Segment.path
                          ++ [FPath.concatList ts] ++ [FPath.merged ts]
                          ++ [FPath.final ts]))))
          toolCalls := (runLoop env o ts req.media 0).calls + 2
          segments := (runLoop env o ts req.media 0).segs
          manifestPaths := some ((runLoop env o ts req.media 0).segs.map Segment.path)
          mergedTrack := some (concatSegments (runLoop env o ts req.media 0).segs)
          finalTrack := some (muxAudio (concatSegments (runLoop env o ts req.media 0).segs)
            (mediaDuration (env (uploadPath af)))) } := by
  by_cases hmed : req.media = []
  · rw [createVideo_no_media hmed] at hr
    simp at hr
  by_cases haud : req.audio = []
  · rw [createVideo_no_audio hmed haud] at hr
    simp at hr
  obtain ⟨af, arest, ha⟩ := List.exists_cons_of_ne_nil haud
  rcases Or.symm (Bool.eq_false_or_eq_true (runLoop env o ts req.media 0).ok) with hok | hok
  · rw [createVideo_loop_fail hmed ha hok] at hr
    simp at hr
  by_cases hsegs : (runLoop env o ts req.media 0).segs = []
  · rw [createVideo_no_valid hmed ha hok hsegs] at hr
    simp at hr
  rcases Or.symm (Bool.eq_false_or_eq_true o.concatOk) with hc | hc
  · rw [createVideo_concat_fail hmed ha hok hsegs hc] at hr
    simp at hr
  rcases Or.symm (Bool.eq_false_or_eq_true o.muxOk) with hx | hx
  · rw [createVideo_mux_fail hmed ha hok hsegs hc hx] at hr
    simp at hr
  · have heq := @createVideo_success_eq env o ts req disk0 af arest
      hmed ha hok hsegs hc hx
    rw [heq] at hr
    simp only [RunResult.response, HttpResult.fileDownload.injEq] at hr
    exact ⟨af, arest, ha, hmed, hok, hsegs, hc, hx, hr.2.2.symm, heq⟩

/-! ### Concrete fixtures used by the witnesses -/

/-- An oracle on which every tool invocation succeeds. -/
def okOracle : Oracle := ⟨fun _ => true, fun _ => true, true, true⟩

/-- An oracle on which only the final mux invocation fails. -/
def muxFailOracle : Oracle := ⟨fun _ => true, fun _ => true, true, false⟩

/-- Disk content interpretation for the fixtures: a 5-second audio clip, a
9-second 640x480 24fps video, everything else an image. -/
def envW : FPath → MediaContent := fun p =>
  match p with
  | FPath.upload n =>
    if n = "a.webm" then MediaContent.audioClip 5
    else if n = "v.mp4" then MediaContent.video 640 480 24 9 true
    else MediaContent.image
  | _ => MediaContent.other

/-- The uploaded audio fixture. -/
def afW : UploadedFile := ⟨"a.webm", "audio/webm"⟩

/-- A request with one image and one audio clip. -/
def reqW : RequestFiles := ⟨[⟨"i.jpg", "image/jpeg"⟩], [afW]⟩

/-- A request with two images and one audio clip. -/
def req2img : RequestFiles :=
  ⟨[⟨"i1.jpg", "image/jpeg"⟩, ⟨"i2.png", "image/png"⟩], [afW]⟩

/-- A request whose only media item has an unsupported MIME type. -/
def reqBad : RequestFiles := ⟨[⟨"t.txt", "text/plain"⟩], [afW]⟩

/-- A request with no media items. -/
def reqNoMedia : RequestFiles := ⟨[], [afW]⟩

/-- A request with media but no audio. -/
def reqNoAudio : RequestFiles := ⟨[⟨"i.jpg", "image/jpeg"⟩], []⟩

/-- Disk contents at handler start for the fixtures (multer already stored
the uploads). -/
def diskW : List FPath :=
  [FPath.upload "i.jpg", FPath.upload "i1.jpg", FPath.upload "i2.png",
    FPath.upload "t.txt", FPath.upload "a.webm"]

/-! ### The claims -/

/-- C1: For every request with a non-empty list of media items, the segment
paths written to the ConcatManifest appear in exactly the same order as
the media items' user-chosen ordinal order: whenever the handler produces
a manifest, its path list equals the in-order traversal of the indexed
media list (`enum` + `filterMap`), with no reordering, deduplication or
sorting, regardless of which items are images and which are videos. -/
theorem claim1_manifest_in_media_order (env : FPath → MediaContent)
    (o : Oracle) (ts : Nat) (req : RequestFiles) (disk0 : List FPath)
    (ps : List FPath)
    (hm : (createVideo env o ts req disk0).manifestPaths = some ps) :
    ps = (req.media.enum.filterMap fun p => segOf env ts p.1 p.2).map
      Segment.path := by
  obtain ⟨hok, hps⟩ := manifest_characterization hm
  rw [hps, runLoop_ok_segments env o ts req.media 0 hok]
  rfl

theorem claim1_witness :
    [FPath.imgSeg 7 0] =
      (reqW.media.enum.filterMap fun p => segOf envW 7 p.1 p.2).map
        Segment.path :=
  claim1_manifest_in_media_order envW okOracle 7 reqW diskW
    [FPath.imgSeg 7 0] (by decide)

/-- C2: For every media item of kind Image, the normalizer produces a
silent (no audio stream) segment of exactly 3 seconds at 30fps scaled to
1280x720 with pixel format yuv420p; consequently, for an all-image input
of N items, the pre-mux MergedTrack duration equals 3*N seconds. -/
theorem claim2_image_segment_and_merged_duration :
    (∀ ts i, createVideoFromImage ts i =
      { path := FPath.imgSeg ts i, width := 1280, height := 720, fps := 30,
        pixFmt := "yuv420p", duration := 3, hasAudio := false }) ∧
    ∀ (env : FPath → MediaContent) (o : Oracle) (ts : Nat)
      (req : RequestFiles) (disk0 : List FPath) (t : Track),
      (∀ f ∈ req.media, mimeStartsWith f.mimetype "image/" = true) →
      (createVideo env o ts req disk0).mergedTrack = some t →
      t.duration = 3 * req.media.length := by
  refine ⟨fun ts i => rfl, ?_⟩
  intro env o ts req disk0 t hall ht
  obtain ⟨hok, _, hteq⟩ := merged_characterization ht
  obtain ⟨hlen, hdur⟩ := runLoop_all_images env o ts req.media 0 hall hok
  have hmap : (runLoop env o ts req.media 0).segs.map Segment.duration =
      List.replicate req.media.length 3 := by
    rw [List.eq_replicate_iff]
    refine ⟨by simp [hlen], ?_⟩
    intro b hb
    obtain ⟨s, hs, rfl⟩ := List.mem_map.mp hb
    exact hdur s hs
  subst hteq
  simp only [concatSegments, hmap, List.sum_replicate]
  rw [nsmul_eq_mul]
  ring

theorem claim2_witness :
    (∀ f ∈ req2img.media, mimeStartsWith f.mimetype "image/" = true) ∧
      (concatSegments [createVideoFromImage 7 0, createVideoFromImage 7 1]).duration =
        3 * req2img.media.length :=
  ⟨by decide,
    claim2_image_segment_and_merged_duration.2 envW okOracle 7 req2img diskW
      (concatSegments [createVideoFromImage 7 0, createVideoFromImage 7 1])
      (by decide) (by decide)⟩

/-- A final track is only ever produced on the fully successful path; it is
the mux of the concatenated segments with the uploaded audio file's
duration. -/
lemma final_characterization {env : FPath → MediaContent} {o : Oracle}
    {ts : Nat} {req : RequestFiles} {disk0 : List FPath} {f : Track}
    {af : UploadedFile} {arest : List UploadedFile}
    (hf : (createVideo env o ts req disk0).finalTrack = some f)
    (ha : req.audio = af :: arest) :
    (createVideo env o ts req disk0).mergedTrack =
      some (concatSegments (runLoop env o ts req.media 0).segs) ∧
    f = muxAudio (concatSegments (runLoop env o ts req.media 0).segs)
      (mediaDuration (env (uploadPath af))) := by
  by_cases hmed : req.media = []
  · rw [createVideo_no_media hmed] at hf
    simp at hf
  by_cases haud : req.audio = []
  · rw [createVideo_no_audio hmed haud] at hf
    simp at hf
  rcases Or.symm (Bool.eq_false_or_eq_true (runLoop env o ts req.media 0).ok) with hok | hok
  · rw [createVideo_loop_fail hmed ha hok] at hf
    simp at hf
  by_cases hsegs : (runLoop env o ts req.media 0).segs = []
  · rw [createVideo_no_valid hmed ha hok hsegs] at hf
    simp at hf
  rcases Or.symm (Bool.eq_false_or_eq_true o.concatOk) with hc | hc
  · rw [createVideo_concat_fail hmed ha hok hsegs hc] at hf
    simp at hf
  rcases Or.symm (Bool.eq_false_or_eq_true o.muxOk) with hx | hx
  · rw [createVideo_mux_fail hmed ha hok hsegs hc hx] at hf
    simp at hf
  · rw [createVideo_success_eq hmed ha hok hsegs hc hx] at hf ⊢
    simp at hf
    simp [hf]

/-- C3: The audio muxer copies the video stream without re-encoding (all
video stream parameters, including the codec, pass through unchanged),
re-encodes the audio stream to AAC, and truncates the output to the
shorter of the two input durations; and on every successful run the final
track is exactly the mux of the merged track with the uploaded audio
file's duration. -/
theorem claim3_mux_copy_aac_shortest :
    (∀ (mt : Track) (ad : Int),
      (muxAudio mt ad).videoCodec = mt.videoCodec ∧
      (muxAudio mt ad).width = mt.width ∧
      (muxAudio mt ad).height = mt.height ∧
      (muxAudio mt ad).fps = mt.fps ∧
      (muxAudio mt ad).pixFmt = mt.pixFmt ∧
      (muxAudio mt ad).audioCodec = some "aac" ∧
      (muxAudio mt ad).duration = min mt.duration ad) ∧
    ∀ (env : FPath → MediaContent) (o : Oracle) (ts : Nat)
      (req : RequestFiles) (disk0 : List FPath) (f : Track)
      (af : UploadedFile) (arest : List UploadedFile),
      (createVideo env o ts req disk0).finalTrack = some f →
      req.audio = af :: arest →
      ∃ m, (createVideo env o ts req disk0).mergedTrack = some m ∧
        f = muxAudio m (mediaDuration (env (uploadPath af))) := by
  refine ⟨fun mt ad => ⟨rfl, rfl, rfl, rfl, rfl, rfl, rfl⟩, ?_⟩
  intro env o ts req disk0 f af arest hf ha
  obtain ⟨hm, hf⟩ := final_characterization hf ha
  exact ⟨concatSegments (runLoop env o ts req.media 0).segs, hm, hf⟩

theorem claim3_witness :
    ∃ m, (createVideo envW okOracle 7 reqW diskW).mergedTrack = some m ∧
      muxAudio (concatSegments [createVideoFromImage 7 0])
          (mediaDuration (envW (uploadPath afW))) =
        muxAudio m (mediaDuration (envW (uploadPath afW))) :=
  claim3_mux_copy_aac_shortest.2 envW okOracle 7 reqW diskW
    (muxAudio (concatSegments [createVideoFromImage 7 0])
      (mediaDuration (envW (uploadPath afW))))
    afW [] (by decide) (by decide)

/-- C4: An item whose MIME type is neither `image/*` nor `video/*` is
skipped: the loop produces no segment for it, consults no tool and cannot
fail on it; and when every item is filtered out this way, the request
fails with the 400 "no valid media" response before any concatenation or
mux is attempted (no manifest, no merged track, no final track, no tool
call, no new file on disk). -/
theorem claim4_unsupported_skipped :
    (∀ (env : FPath → MediaContent) (o : Oracle) (ts : Nat)
      (f : UploadedFile) (rest : List UploadedFile) (i : Nat),
      mimeStartsWith f.mimetype "image/" = false →
      mimeStartsWith f.mimetype "video/" = false →
      runLoop env o ts (f :: rest) i = runLoop env o ts rest (i + 1)) ∧
    ∀ (env : FPath → MediaContent) (o : Oracle) (ts : Nat)
      (req : RequestFiles) (disk0 : List FPath),
      req.media ≠ [] → req.audio ≠ [] →
      (∀ f ∈ req.media, mimeStartsWith f.mimetype "image/" = false ∧
        mimeStartsWith f.mimetype "video/" = false) →
      (createVideo env o ts req disk0).response =
        HttpResult.badRequest "No valid media (image/video) files to process." ∧
      (createVideo env o ts req disk0).toolCalls = 0 ∧
      (createVideo env o ts req disk0).manifestPaths = none ∧
      (createVideo env o ts req disk0).mergedTrack = none ∧
      (createVideo env o ts req disk0).finalTrack = none ∧
      (createVideo env o ts req disk0).fs = disk0 := by
  refine ⟨fun env o ts f rest i himg hvid =>
    runLoop_cons_skip rest i himg hvid, ?_⟩
  intro env o ts req disk0 hmne hane hall
  obtain ⟨af, arest, ha⟩ := List.exists_cons_of_ne_nil hane
  have hloop := runLoop_all_unsupported env o ts req.media 0 hall
  have hok : (runLoop env o ts req.media 0).ok = true := by rw [hloop]
  have hsegs : (runLoop env o ts req.media 0).segs = [] := by rw [hloop]
  have hcalls : (runLoop env o ts req.media 0).calls = 0 := by rw [hloop]
  rw [createVideo_no_valid hmne ha hok hsegs]
  exact ⟨rfl, hcalls, rfl, rfl, rfl, rfl⟩

theorem claim4_witness :
    (createVideo envW okOracle 7 reqBad diskW).response =
      HttpResult.badRequest "No valid media (image/video) files to process." ∧
    (createVideo envW okOracle 7 reqBad diskW).toolCalls = 0 ∧
    (createVideo envW okOracle 7 reqBad diskW).manifestPaths = none ∧
    (createVideo envW okOracle 7 reqBad diskW).mergedTrack = none ∧
    (createVideo envW okOracle 7 reqBad diskW).finalTrack = none ∧
    (createVideo envW okOracle 7 reqBad diskW).fs = diskW :=
  claim4_unsupported_skipped.2 envW okOracle 7 reqBad diskW
    (by decide) (by decide) (by decide)

/-- C5: For every segment path, the manifest line written for it escapes
every single-quote character (each quote becomes quote-backslash-quote-
quote inside the single-quoted token), so the line stays syntactically
valid for the external tool's list-file parser: parsing the line written
for any path, including one containing single quotes, recovers exactly
that path. -/
theorem claim5_quote_escaping_roundtrip :
    ∀ p : List Char, parseFileLine (fileLine p) = some p := by
  intro p
  have h1 : fileLine p =
      Char.ofNat 102 :: Char.ofNat 105 :: Char.ofNat 108 :: Char.ofNat 101 ::
        Char.ofNat 32 :: (sq :: (escapeQuotes p ++ [sq])) := rfl
  rw [h1]
  simp only [parseFileLine]
  rw [if_pos (by decide)]
  rw [fftokenAux_plain_sq, fftokenAux_quoted_escape p []]
  simp [fftokenAux]

/-- Membership in the disk after the stream-close cleanup chain. -/
lemma mem_cleanup {x ap clp : FPath} {mp sp d4 : List FPath} :
    x ∈ unlink clp (unlinkAll sp (unlinkAll mp (unlink ap d4))) ↔
      x ∈ d4 ∧ x ≠ ap ∧ x ∉ mp ∧ x ∉ sp ∧ x ≠ clp := by
  rw [mem_unlink, mem_unlinkAll, mem_unlinkAll, mem_unlink]
  tauto

/-- C6: On every successful run the output geometry is fixed: every
segment, the merged track and the final artifact are 1280x720 at 30fps,
regardless of the input items' resolutions and frame rates. -/
theorem claim6_fixed_geometry (env : FPath → MediaContent) (o : Oracle)
    (ts : Nat) (req : RequestFiles) (disk0 : List FPath)
    (ct fn : String) (op : FPath)
    (hr : (createVideo env o ts req disk0).response =
      HttpResult.fileDownload ct fn op) :
    (∀ s ∈ (createVideo env o ts req disk0).segments,
      s.width = 1280 ∧ s.height = 720 ∧ s.fps = 30) ∧
    (∀ m, (createVideo env o ts req disk0).mergedTrack = some m →
      m.width = 1280 ∧ m.height = 720 ∧ m.fps = 30) ∧
    (∀ f, (createVideo env o ts req disk0).finalTrack = some f →
      f.width = 1280 ∧ f.height = 720 ∧ f.fps = 30) := by
  obtain ⟨af, arest, ha, hmne, hok, hsne, hc, hx, hop, heq⟩ :=
    success_characterization hr
  obtain ⟨s0, tl, hcons⟩ := List.exists_cons_of_ne_nil hsne
  have hs0 : s0 ∈ (runLoop env o ts req.media 0).segs := by
    rw [hcons]; simp
  obtain ⟨hw, hh, hf, _, _⟩ := runLoop_segment_shape env o ts req.media 0 s0 hs0
  have hcw : (concatSegments (runLoop env o ts req.media 0).segs).width = 1280 := by
    rw [hcons]
    simpa [concatSegments] using hw
  have hch : (concatSegments (runLoop env o ts req.media 0).segs).height = 720 := by
    rw [hcons]
    simpa [concatSegments] using hh
  have hsegments : (createVideo env o ts req disk0).segments =
      (runLoop env o ts req.media 0).segs := by rw [heq]
  have hmerged : (createVideo env o ts req disk0).mergedTrack =
      some (concatSegments (runLoop env o ts req.media 0).segs) := by rw [heq]
  have hfinal : (createVideo env o ts req disk0).finalTrack =
      some (muxAudio (concatSegments (runLoop env o ts req.media 0).segs)
        (mediaDuration (env (uploadPath af)))) := by rw [heq]
  refine ⟨?_, ?_, ?_⟩
  · intro s hs
    rw [hsegments] at hs
    obtain ⟨h1, h2, h3, _, _⟩ := runLoop_segment_shape env o ts req.media 0 s hs
    exact ⟨h1, h2, h3⟩
  · intro m hm
    rw [hmerged, Option.some.injEq] at hm
    subst hm
    exact ⟨hcw, hch, rfl⟩
  · intro f hf
    rw [hfinal, Option.some.injEq] at hf
    subst hf
    exact ⟨hcw, hch, rfl⟩

theorem claim6_witness :
    (∀ s ∈ (createVideo envW okOracle 7 reqW diskW).segments,
      s.width = 1280 ∧ s.height = 720 ∧ s.fps = 30) ∧
    (∀ m, (createVideo envW okOracle 7 reqW diskW).mergedTrack = some m →
      m.width = 1280 ∧ m.height = 720 ∧ m.fps = 30) ∧
    (∀ f, (createVideo envW okOracle 7 reqW diskW).finalTrack = some f →
      f.width = 1280 ∧ f.height = 720 ∧ f.fps = 30) :=
  claim6_fixed_geometry envW okOracle 7 reqW diskW
    "video/mp4" "final-video.mp4" (FPath.final 7) (by decide)

/-- C7: A request with zero media items, and a request with media but no
audio, are each rejected with a 400 response and its descriptive message,
with no external-tool invocation, no processing artifacts and no change to
the disk. -/
theorem claim7_input_validation :
    (∀ (env : FPath → MediaContent) (o : Oracle) (ts : Nat)
      (req : RequestFiles) (disk0 : List FPath), req.media = [] →
      (createVideo env o ts req disk0).response =
        HttpResult.badRequest "No media files received." ∧
      (createVideo env o ts req disk0).toolCalls = 0 ∧
      (createVideo env o ts req disk0).fs = disk0 ∧
      (createVideo env o ts req disk0).manifestPaths = none ∧
      (createVideo env o ts req disk0).mergedTrack = none ∧
      (createVideo env o ts req disk0).finalTrack = none) ∧
    ∀ (env : FPath → MediaContent) (o : Oracle) (ts : Nat)
      (req : RequestFiles) (disk0 : List FPath),
      req.media ≠ [] → req.audio = [] →
      (createVideo env o ts req disk0).response =
        HttpResult.badRequest "No audio file received." ∧
      (createVideo env o ts req disk0).toolCalls = 0 ∧
      (createVideo env o ts req disk0).fs = disk0 ∧
      (createVideo env o ts req disk0).manifestPaths = none ∧
      (createVideo env o ts req disk0).mergedTrack = none ∧
      (createVideo env o ts req disk0).finalTrack = none := by
  constructor
  · intro env o ts req disk0 hm
    rw [createVideo_no_media hm]
    exact ⟨rfl, rfl, rfl, rfl, rfl, rfl⟩
  · intro env o ts req disk0 hm ha
    rw [createVideo_no_audio hm ha]
    exact ⟨rfl, rfl, rfl, rfl, rfl, rfl⟩

theorem claim7_witness :
    ((createVideo envW okOracle 7 reqNoMedia diskW).response =
        HttpResult.badRequest "No media files received." ∧
      (createVideo envW okOracle 7 reqNoMedia diskW).toolCalls = 0 ∧
      (createVideo envW okOracle 7 reqNoMedia diskW).fs = diskW ∧
      (createVideo envW okOracle 7 reqNoMedia diskW).manifestPaths = none ∧
      (createVideo envW okOracle 7 reqNoMedia diskW).mergedTrack = none ∧
      (createVideo envW okOracle 7 reqNoMedia diskW).finalTrack = none) ∧
    ((createVideo envW okOracle 7 reqNoAudio diskW).response =
        HttpResult.badRequest "No audio file received." ∧
      (createVideo envW okOracle 7 reqNoAudio diskW).toolCalls = 0 ∧
      (createVideo envW okOracle 7 reqNoAudio diskW).fs = diskW ∧
      (createVideo envW okOracle 7 reqNoAudio diskW).manifestPaths = none ∧
      (createVideo envW okOracle 7 reqNoAudio diskW).mergedTrack = none ∧
      (createVideo envW okOracle 7 reqNoAudio diskW).finalTrack = none) :=
  ⟨claim7_input_validation.1 envW okOracle 7 reqNoMedia diskW (by decide),
    claim7_input_validation.2 envW okOracle 7 reqNoAudio diskW
      (by decide) (by decide)⟩

/-- C8: Whichever stage's external-tool invocation fails — a normalize
call, the concat, or the mux — the request answers 500 with the generic
message, every later stage is skipped (no later artifact is produced),
and no already-produced temporary file is deleted: the final disk is the
starting disk plus everything created so far, with nothing removed. -/
theorem claim8_stage_failure_500 :
    ∀ (env : FPath → MediaContent) (o : Oracle) (ts : Nat)
      (req : RequestFiles) (disk0 : List FPath) (af : UploadedFile)
      (arest : List UploadedFile),
      req.media ≠ [] → req.audio = af :: arest →
      (((runLoop env o ts req.media 0).ok = false →
        (createVideo env o ts req disk0).response =
          HttpResult.serverError "Failed to create video." ∧
        (createVideo env o ts req disk0).manifestPaths = none ∧
        (createVideo env o ts req disk0).mergedTrack = none ∧
        (createVideo env o ts req disk0).finalTrack = none ∧
        (createVideo env o ts req disk0).fs =
          disk0 ++ (runLoop env o ts req.media 0).segs.map Segment.path) ∧
      ((runLoop env o ts req.media 0).ok = true →
        (runLoop env o ts req.media 0).segs ≠ [] → o.concatOk = false →
        (createVideo env o ts req disk0).response =
          HttpResult.serverError "Failed to create video." ∧
        (createVideo env o ts req disk0).mergedTrack = none ∧
        (createVideo env o ts req disk0).finalTrack = none ∧
        (createVideo env o ts req disk0).fs =
          disk0 ++ (runLoop env o ts req.media 0).segs.map Segment.path
            ++ [FPath.concatList ts]) ∧
      ((runLoop env o ts req.media 0).ok = true →
        (runLoop env o ts req.media 0).segs ≠ [] → o.concatOk = true →
        o.muxOk = false →
        (createVideo env o ts req disk0).response =
          HttpResult.serverError "Failed to create video." ∧
        (createVideo env o ts req disk0).finalTrack = none ∧
        (createVideo env o ts req disk0).fs =
          disk0 ++ (runLoop env o ts req.media 0).segs.map Segment.path
            ++ [FPath.concatList ts] ++ [FPath.merged ts])) := by
  intro env o ts req disk0 af arest hmne ha
  refine ⟨?_, ?_, ?_⟩
  · intro hok
    rw [createVideo_loop_fail hmne ha hok]
    exact ⟨rfl, rfl, rfl, rfl, rfl⟩
  · intro hok hsegs hc
    rw [createVideo_concat_fail hmne ha hok hsegs hc]
    exact ⟨rfl, rfl, rfl, rfl⟩
  · intro hok hsegs hc hx
    rw [createVideo_mux_fail hmne ha hok hsegs hc hx]
    exact ⟨rfl, rfl, rfl⟩

theorem claim8_witness :
    (createVideo envW muxFailOracle 7 reqW diskW).response =
      HttpResult.serverError "Failed to create video." ∧
    (createVideo envW muxFailOracle 7 reqW diskW).finalTrack = none ∧
    (createVideo envW muxFailOracle 7 reqW diskW).fs =
      diskW ++ (runLoop envW muxFailOracle 7 reqW.media 0).segs.map Segment.path
        ++ [FPath.concatList 7] ++ [FPath.merged 7] :=
  (claim8_stage_failure_500 envW muxFailOracle 7 reqW diskW afW []
    (by decide) (by decide)).2.2 (by decide) (by decide) (by decide) (by decide)

/-- C9: After a successful request finishes streaming, the audio upload,
every media upload, every segment file and the concat manifest have been
deleted from the disk, while the final output file is still there. -/
theorem claim9_cleanup_after_success (env : FPath → MediaContent)
    (o : Oracle) (ts : Nat) (req : RequestFiles) (disk0 : List FPath)
    (ct fn : String) (op : FPath) (af : UploadedFile)
    (arest : List UploadedFile) (ha : req.audio = af :: arest)
    (hr : (createVideo env o ts req disk0).response =
      HttpResult.fileDownload ct fn op) :
    uploadPath af ∉ (createVideo env o ts req disk0).fs ∧
    (∀ f ∈ req.media, uploadPath f ∉ (createVideo env o ts req disk0).fs) ∧
    (∀ s ∈ (createVideo env o ts req disk0).segments,
      s.path ∉ (createVideo env o ts req disk0).fs) ∧
    FPath.concatList ts ∉ (createVideo env o ts req disk0).fs ∧
    FPath.final ts ∈ (createVideo env o ts req disk0).fs := by
  obtain ⟨af', arest', ha', hmne, hok, hsne, hc, hx, hop, heq⟩ :=
    success_characterization hr
  rw [ha] at ha'
  injection ha' with h1 h2
  subst h1; subst h2
  have hfs : (createVideo env o ts req disk0).fs =
      unlink (FPath.concatList ts)
        (unlinkAll ((runLoop env o ts req.media 0).segs.map Segment.path)
          (unlinkAll (req.media.map uploadPath)
            (unlink (uploadPath af)
              (disk0 ++ (runLoop env o ts req.media 0).segs.map Segment.path
                ++ [FPath.concatList ts] ++ [FPath.merged ts]
                ++ [FPath.final ts])))) := by rw [heq]
  have hsegments : (createVideo env o ts req disk0).segments =
      (runLoop env o ts req.media 0).segs := by rw [heq]
  refine ⟨?_, ?_, ?_, ?_, ?_⟩
  · intro hmem
    rw [hfs, mem_cleanup] at hmem
    exact hmem.2.1 rfl
  · intro f hf hmem
    rw [hfs, mem_cleanup] at hmem
    exact hmem.2.2.1 (List.mem_map_of_mem uploadPath hf)
  · intro s hs hmem
    rw [hsegments] at hs
    rw [hfs, mem_cleanup] at hmem
    exact hmem.2.2.2.1 (List.mem_map_of_mem Segment.path hs)
  · intro hmem
    rw [hfs, mem_cleanup] at hmem
    exact hmem.2.2.2.2 rfl
  · rw [hfs, mem_cleanup]
    refine ⟨by simp, by simp [uploadPath], ?_, ?_, by simp⟩
    · intro hmem
      obtain ⟨f, _, hf⟩ := List.mem_map.mp hmem
      simp [uploadPath] at hf
    · intro hmem
      obtain ⟨s, hs, hp⟩ := List.mem_map.mp hmem
      obtain ⟨_, _, _, _, k, hk | hk⟩ :=
        runLoop_segment_shape env o ts req.media 0 s hs
      · rw [hk] at hp
        simp at hp
      · rw [hk] at hp
        simp at hp

theorem claim9_witness :
    uploadPath afW ∉ (createVideo envW okOracle 7 reqW diskW).fs ∧
    (∀ f ∈ reqW.media, uploadPath f ∉ (createVideo envW okOracle 7 reqW diskW).fs) ∧
    (∀ s ∈ (createVideo envW okOracle 7 reqW diskW).segments,
      s.path ∉ (createVideo envW okOracle 7 reqW diskW).fs) ∧
    FPath.concatList 7 ∉ (createVideo envW okOracle 7 reqW diskW).fs ∧
    FPath.final 7 ∈ (createVideo envW okOracle 7 reqW diskW).fs :=
  claim9_cleanup_after_success envW okOracle 7 reqW diskW
    "video/mp4" "final-video.mp4" (FPath.final 7) afW [] (by decide) (by decide)

/-- C10: After a successful request the merged intermediate video file is
never deleted by the cleanup step and remains on disk, even though the
segment files and the concat manifest of the same request are deleted. -/
theorem claim10_merged_file_retained (env : FPath → MediaContent)
    (o : Oracle) (ts : Nat) (req : RequestFiles) (disk0 : List FPath)
    (ct fn : String) (op : FPath)
    (hr : (createVideo env o ts req disk0).response =
      HttpResult.fileDownload ct fn op) :
    FPath.merged ts ∈ (createVideo env o ts req disk0).fs ∧
    FPath.concatList ts ∉ (createVideo env o ts req disk0).fs ∧
    ∀ s ∈ (createVideo env o ts req disk0).segments,
      s.path ∉ (createVideo env o ts req disk0).fs := by
  obtain ⟨af, arest, ha, hmne, hok, hsne, hc, hx, hop, heq⟩ :=
    success_characterization hr
  have hfs : (createVideo env o ts req disk0).fs =
      unlink (FPath.concatList ts)
        (unlinkAll ((runLoop env o ts req.media 0).segs.map Segment.path)
          (unlinkAll (req.media.map uploadPath)
            (unlink (uploadPath af)
              (disk0 ++ (runLoop env o ts req.media 0).segs.map Segment.path
                ++ [FPath.concatList ts] ++ [FPath.merged ts]
                ++ [FPath.final ts])))) := by rw [heq]
  have hsegments : (createVideo env o ts req disk0).segments =
      (runLoop env o ts req.media 0).segs := by rw [heq]
  refine ⟨?_, ?_, ?_⟩
  · rw [hfs, mem_cleanup]
    refine ⟨by simp, by simp [uploadPath], ?_, ?_, by simp⟩
    · intro hmem
      obtain ⟨f, _, hf⟩ := List.mem_map.mp hmem
      simp [uploadPath] at hf
    · intro hmem
      obtain ⟨s, hs, hp⟩ := List.mem_map.mp hmem
      obtain ⟨_, _, _, _, k, hk | hk⟩ :=
        runLoop_segment_shape env o ts req.media 0 s hs
      · rw [hk] at hp
        simp at hp
      · rw [hk] at hp
        simp at hp
  · intro hmem
    rw [hfs, mem_cleanup] at hmem
    exact hmem.2.2.2.2 rfl
  · intro s hs hmem
    rw [hsegments] at hs
    rw [hfs, mem_cleanup] at hmem
    exact hmem.2.2.2.1 (List.mem_map_of_mem Segment.path hs)

theorem claim10_witness :
    FPath.merged 7 ∈ (createVideo envW okOracle 7 reqW diskW).fs ∧
    FPath.concatList 7 ∉ (createVideo envW okOracle 7 reqW diskW).fs ∧
    ∀ s ∈ (createVideo envW okOracle 7 reqW diskW).segments,
      s.path ∉ (createVideo envW okOracle 7 reqW diskW).fs :=
  claim10_merged_file_retained envW okOracle 7 reqW diskW
    "video/mp4" "final-video.mp4" (FPath.final 7) (by decide)

end VideoEditor
